import Mathlib

/-!
Shallow embedding of the ZIP Football Calculator engine (src/script.js) over ℚ.

The source is JavaScript operating on IEEE floats; the claims under audit are
algebraic identities of the algorithm, so the embedding works in exact rational
arithmetic.  `Math.exp` is the single transcendental the engine calls; it is
abstracted as an explicit function parameter `e : ℚ → ℚ` threaded through the
model (the code computes `Math.exp(-lambda)` once per distribution and only
multiplies by it afterwards, so every claimed identity is uniform in that value).

The repository ships two near-identical script variants in one file
(src/script.js lines 1-805, the dutching variant, and lines 806-1428).  The
mathematical core (`computePoissonPMF`, `computeJointDistribution`,
`deriveMarkets`, `applyMargin`, `getOdds`) is textually identical in both; the
half-period scaling inside `calculateAndRender` differs between the variants and
both versions are embedded below.
-/

namespace ZIP

/-- `MAX_GOALS = 7`: grid indices 0..7 (src/script.js line 13 and line 817). -/
def MAX_GOALS : ℕ := 7

/-- `STANDARD_LINES = [0.5, 1.5, 2.5, 3.5, 4.5, 5.5]` (line 14 and line 818). -/
def STANDARD_LINES : List ℚ := [1/2, 3/2, 5/2, 7/2, 9/2, 11/2]

/-- The source's `factorial` (lines 158-165): a cache `[1,1,2,6,24,120,720,5040]`
for `n ≤ 7` (which is exactly `0! .. 7!`) and iterative multiplication
`res *= i` above that, i.e. the mathematical factorial on ℕ.  (The JS guard
`n < 0` cannot fire on the ℕ domain of goal counts.) -/
def factorial (n : ℕ) : ℕ := Nat.factorial n

/-- One entry of the zero-inflated PMF loop body (lines 172-176 / 989-1001):
`pStandard = expLambda * lambda^k / k!`;
`pZip = k === 0 ? pi + (1-pi)*pStandard : (1-pi)*pStandard`. -/
def pZip (lambda pi expLambda : ℚ) (k : ℕ) : ℚ :=
  if k = 0 then pi + (1 - pi) * (expLambda * lambda ^ k / (factorial k : ℚ))
  else (1 - pi) * (expLambda * lambda ^ k / (factorial k : ℚ))

/-- Result record of `computePoissonPMF`: `{ probs, tail }`. -/
structure PMFResult where
  probs : List ℚ
  tail : ℚ
  deriving DecidableEq

/-- `computePoissonPMF(lambda, maxGoals, pi)` (lines 167-179 / 984-1004):
pushes `pZip` for `k = 0..maxGoals` and returns `tail = 1 - sum`.
`e` stands for `Math.exp`; the code computes `expLambda = Math.exp(-lambda)`. -/
def computePoissonPMF (e : ℚ → ℚ) (lambda : ℚ) (maxGoals : ℕ) (pi : ℚ) : PMFResult :=
  let expLambda := e (-lambda)
  let probs := (List.range (maxGoals + 1)).map (pZip lambda pi expLambda)
  { probs := probs, tail := 1 - probs.sum }

/-- Sum of all cells of a matrix (the loop accumulator `totalProb`). -/
def matrixSum (m : List (List ℚ)) : ℚ := (m.map List.sum).sum

/-- Cell access `matrix[h][a]` (out-of-range reads, which the source never
performs, default to 0). -/
def cellAt (m : List (List ℚ)) (h a : ℕ) : ℚ := (m.getD h []).getD a 0

/-- The nested loop of `computeJointDistribution` (lines 188-195 / 1017-1025):
`matrix[i][j] = distH.probs[i] * distA.probs[j]` for `i, j` over the prob
vectors' index range. -/
def buildJointMatrix (probsH probsA : List ℚ) : List (List ℚ) :=
  probsH.map (fun ph => probsA.map (fun pa => ph * pa))

/-- Result record of `computeJointDistribution`: `{ matrix, tailProb }`.
(The second script variant additionally returns the two input distributions;
no claim touches those fields.) -/
structure JointResult where
  matrix : List (List ℚ)
  tailProb : ℚ
  deriving DecidableEq

/-- `computeJointDistribution(lambdaH, lambdaA, piH, piA, maxGoals)`
(lines 181-197 / 1010-1033): outer product of the two ZIP PMFs, with
`tailProb = 1 - totalProb` where `totalProb` accumulates every cell. -/
def computeJointDistribution (e : ℚ → ℚ) (lambdaH lambdaA piH piA : ℚ) (maxGoals : ℕ) :
    JointResult :=
  let distH := computePoissonPMF e lambdaH maxGoals piH
  let distA := computePoissonPMF e lambdaA maxGoals piA
  let matrix := buildJointMatrix distH.probs distA.probs
  { matrix := matrix, tailProb := 1 - matrixSum matrix }

/-- The grid `(h, a) : h < size, a < size` scanned by the market loops. -/
def grid (size : ℕ) : Finset (ℕ × ℕ) := Finset.range size ×ˢ Finset.range size

/-- Accumulator `m.homeWin` before normalization: cells with `h > a` (line 251). -/
def homeWinRaw (m : List (List ℚ)) : ℚ :=
  ∑ c in grid m.length, if c.2 < c.1 then cellAt m c.1 c.2 else 0

/-- Accumulator `m.draw` before normalization: cells with `h === a` (line 252). -/
def drawRaw (m : List (List ℚ)) : ℚ :=
  ∑ c in grid m.length, if c.1 = c.2 then cellAt m c.1 c.2 else 0

/-- Accumulator `m.awayWin` before normalization: cells with `h < a` (line 253). -/
def awayWinRaw (m : List (List ℚ)) : ℚ :=
  ∑ c in grid m.length, if c.1 < c.2 then cellAt m c.1 c.2 else 0

/-- Accumulator `m.bttsYes`: cells with `h > 0 && a > 0` (line 255). -/
def bttsYesRaw (m : List (List ℚ)) : ℚ :=
  ∑ c in grid m.length, if 0 < c.1 ∧ 0 < c.2 then cellAt m c.1 c.2 else 0

/-- Accumulator `m.winToNilHome`: cells with `h > 0 && a === 0` (line 256). -/
def winToNilHomeRaw (m : List (List ℚ)) : ℚ :=
  ∑ c in grid m.length, if 0 < c.1 ∧ c.2 = 0 then cellAt m c.1 c.2 else 0

/-- Accumulator `m.winToNilAway`: cells with `a > 0 && h === 0` (line 257). -/
def winToNilAwayRaw (m : List (List ℚ)) : ℚ :=
  ∑ c in grid m.length, if 0 < c.2 ∧ c.1 = 0 then cellAt m c.1 c.2 else 0

/-- Accumulator `m.cleanSheetHome`: cells with `a === 0` (line 258). -/
def cleanSheetHomeRaw (m : List (List ℚ)) : ℚ :=
  ∑ c in grid m.length, if c.2 = 0 then cellAt m c.1 c.2 else 0

/-- Accumulator `m.cleanSheetAway`: cells with `h === 0` (line 259). -/
def cleanSheetAwayRaw (m : List (List ℚ)) : ℚ :=
  ∑ c in grid m.length, if c.1 = 0 then cellAt m c.1 c.2 else 0

/-- Accumulator `m.overs[line]`: cells with `total > line` (lines 264-266). -/
def oversRaw (m : List (List ℚ)) (line : ℚ) : ℚ :=
  ∑ c in grid m.length, if line < (c.1 + c.2 : ℚ) then cellAt m c.1 c.2 else 0

/-- Accumulator `m.exactTotals[t]`: cells with `h + a === t` (lines 261-262);
the source guard `total <= maxTotal` always holds on the grid. -/
def exactTotalsRaw (m : List (List ℚ)) (t : ℕ) : ℚ :=
  ∑ c in grid m.length, if c.1 + c.2 = t then cellAt m c.1 c.2 else 0

/-- The `MarketSet` record built by `deriveMarkets`.  `overs` and `exactTotals`
are modelled as functions of the line / total; the source materializes them
only at the standard lines / totals `0..2*(size-1)`. -/
structure Markets where
  homeWin : ℚ
  draw : ℚ
  awayWin : ℚ
  bttsYes : ℚ
  bttsNo : ℚ
  winToNilHome : ℚ
  winToNilAway : ℚ
  cleanSheetHome : ℚ
  cleanSheetAway : ℚ
  overs : ℚ → ℚ
  exactTotals : ℕ → ℚ
  map : ℕ × ℕ → ℚ

/-- `deriveMarkets(jointDist)` (lines 231-277 / 1040-1119): one pass over the
grid accumulating every market; then `bttsNo = 1 - bttsYes`, and the three 1X2
figures are divided by their own sum when that sum is positive. -/
def deriveMarkets (jointDist : JointResult) : Markets :=
  let matrix := jointDist.matrix
  let hw := homeWinRaw matrix
  let dr := drawRaw matrix
  let aw := awayWinRaw matrix
  let sum1x2 := hw + dr + aw
  let norm := fun x => if 0 < sum1x2 then x / sum1x2 else x
  { homeWin := norm hw
    draw := norm dr
    awayWin := norm aw
    bttsYes := bttsYesRaw matrix
    bttsNo := 1 - bttsYesRaw matrix
    winToNilHome := winToNilHomeRaw matrix
    winToNilAway := winToNilAwayRaw matrix
    cleanSheetHome := cleanSheetHomeRaw matrix
    cleanSheetAway := cleanSheetAwayRaw matrix
    overs := oversRaw matrix
    exactTotals := exactTotalsRaw matrix
    map := fun c => cellAt matrix c.1 c.2 }

/-- `applyMargin(probs, marginPct)` (lines 457-462 / 1126-1135):
`targetSum = 1 + marginPct/100`, `currentSum = probs.reduce((a,b) => a+b, 0)`
(the list sum), and each output is `p / currentSum * targetSum`, or 0 for every
element when `currentSum === 0`. -/
def applyMargin (probs : List ℚ) (marginPct : ℚ) : List ℚ :=
  let marginDecimal := marginPct / 100
  let targetSum := 1 + marginDecimal
  let currentSum := probs.sum
  probs.map (fun p => if currentSum = 0 then 0 else p / currentSum * targetSum)

/-- State-passing embedding of `applyMargin`: the JS function receives a
reference to the caller's array; the pair's second component is that array's
contents when the call returns.  The body evaluates `probs.reduce` (a read)
and `probs.map` (a read that allocates a fresh array), so the final contents
are the initial contents. -/
def applyMarginTracked (probs : List ℚ) (marginPct : ℚ) : List ℚ × List ℚ :=
  let marginDecimal := marginPct / 100
  let targetSum := 1 + marginDecimal
  let currentSum := probs.sum
  (probs.map (fun p => if currentSum = 0 then 0 else p / currentSum * targetSum), probs)

/-- `getOdds(prob)` (line 464 / 1137-1140): `prob <= 0.0001 ? 0 : 1 / prob`. -/
def getOdds (prob : ℚ) : ℚ := if prob ≤ 1/10000 then 0 else 1 / prob

/-- The three joint matrices `appState.jointFull / jointH1 / jointH2` built by
one `calculateAndRender` pass. -/
structure CalcState where
  jointFull : JointResult
  jointH1 : JointResult
  jointH2 : JointResult
  deriving DecidableEq

/-- The matrix-building core of `calculateAndRender` in the first (dutching)
script variant (lines 213-224): `factorH1 = halfFactor`,
`factorH2 = 1.0 - factorH1`, and each half scales both lambdas. -/
def calculateAndRenderJoints (e : ℚ → ℚ)
    (lambdaHomeFull lambdaAwayFull piHome piAway halfFactor : ℚ) : CalcState :=
  let factorH1 := halfFactor
  let factorH2 := 1 - factorH1
  { jointFull := computeJointDistribution e lambdaHomeFull lambdaAwayFull
      piHome piAway MAX_GOALS
    jointH1 := computeJointDistribution e (lambdaHomeFull * factorH1)
      (lambdaAwayFull * factorH1) piHome piAway MAX_GOALS
    jointH2 := computeJointDistribution e (lambdaHomeFull * factorH2)
      (lambdaAwayFull * factorH2) piHome piAway MAX_GOALS }

/-- The matrix-building core of `calculateAndRender` in the second script
variant (lines 1148-1193): `factor = halfFactor` and BOTH halves scale by
`factor` (lines 1175-1190, commented `Assumed symmetric scaling`). -/
def calculateAndRenderJointsB (e : ℚ → ℚ)
    (lambdaHomeFull lambdaAwayFull piHome piAway halfFactor : ℚ) : CalcState :=
  let factor := halfFactor
  { jointFull := computeJointDistribution e lambdaHomeFull lambdaAwayFull
      piHome piAway MAX_GOALS
    jointH1 := computeJointDistribution e (lambdaHomeFull * factor)
      (lambdaAwayFull * factor) piHome piAway MAX_GOALS
    jointH2 := computeJointDistribution e (lambdaHomeFull * factor)
      (lambdaAwayFull * factor) piHome piAway MAX_GOALS }

/-- A concrete stand-in for `Math.exp` used to instantiate the model at
explicit inputs (any fixed rational-valued function works for the identities
under audit, which hold uniformly in the exponential's value). -/
def expStub : ℚ → ℚ := fun _ => 1

/-- Match result tags, the characters `'H' / 'D' / 'A'` of the source. -/
inductive RType where
  | H : RType
  | D : RType
  | A : RType
  deriving DecidableEq

/-- Result classification `h > a ? 'H' : h === a ? 'D' : 'A'`
(lines 308 and 321, same rule as the 1X2 scan at lines 251-253). -/
def resultOf (h a : ℕ) : RType :=
  if a < h then RType.H else if h = a then RType.D else RType.A

/-- The 9 keys of the `htft` object, in source order (lines 286-290). -/
def htftKeys : List (RType × RType) :=
  [(RType.H, RType.H), (RType.H, RType.D), (RType.H, RType.A),
   (RType.D, RType.H), (RType.D, RType.D), (RType.D, RType.A),
   (RType.A, RType.H), (RType.A, RType.D), (RType.A, RType.A)]

/-- Over/under pair stored at `htftGoals[line][key]` (line 297). -/
structure OverUnder where
  over : ℚ
  under : ℚ
  deriving DecidableEq

/-- Return record `{ htft, htftGoals }` of `deriveHalfTimeFullTime` (line 343).
`htft` and `htftGoals` are modelled as functions of key / line; the source
materializes the 9 keys and the standard lines. -/
structure HTFTData where
  htft : RType × RType → ℚ
  htftGoals : ℚ → RType × RType → OverUnder

/-- The quadruple loop domain of `deriveHalfTimeFullTime` (lines 302-311):
`(h1_h, h1_a)` and `(h2_h, h2_a)` each over `0..size-1`, where `size`
is taken from the first matrix. -/
def quadGrid (size : ℕ) : Finset ((ℕ × ℕ) × ℕ × ℕ) :=
  grid size ×ˢ grid size

/-- One loop iteration's contribution to `htft[key]` (lines 304-328), with the
two `continue` skips on zero-probability cells (lines 305 and 313):
`prob = pHT * p2H` accumulates under key
`(HT result of the half-1 score, FT result of the summed score)`. -/
def htftTerm (m1 m2 : List (List ℚ)) (key : RType × RType)
    (q : (ℕ × ℕ) × ℕ × ℕ) : ℚ :=
  if cellAt m1 q.1.1 q.1.2 = 0 then 0
  else if cellAt m2 q.2.1 q.2.2 = 0 then 0
  else if (resultOf q.1.1 q.1.2,
           resultOf (q.1.1 + q.2.1) (q.1.2 + q.2.2)) = key
  then cellAt m1 q.1.1 q.1.2 * cellAt m2 q.2.1 q.2.2 else 0

/-- One loop iteration's contribution to `htftGoals[line][key].over`
(lines 331-333): same key and skips as `htftTerm`, counted when
`ftTotal > line`. -/
def htftOverTerm (m1 m2 : List (List ℚ)) (line : ℚ) (key : RType × RType)
    (q : (ℕ × ℕ) × ℕ × ℕ) : ℚ :=
  if cellAt m1 q.1.1 q.1.2 = 0 then 0
  else if cellAt m2 q.2.1 q.2.2 = 0 then 0
  else if (resultOf q.1.1 q.1.2,
           resultOf (q.1.1 + q.2.1) (q.1.2 + q.2.2)) = key
  then (if line < ((q.1.1 + q.2.1) + (q.1.2 + q.2.2) : ℚ)
        then cellAt m1 q.1.1 q.1.2 * cellAt m2 q.2.1 q.2.2 else 0)
  else 0

/-- One loop iteration's contribution to `htftGoals[line][key].under`
(lines 334-335): the `else` branch of the `ftTotal > line` test. -/
def htftUnderTerm (m1 m2 : List (List ℚ)) (line : ℚ) (key : RType × RType)
    (q : (ℕ × ℕ) × ℕ × ℕ) : ℚ :=
  if cellAt m1 q.1.1 q.1.2 = 0 then 0
  else if cellAt m2 q.2.1 q.2.2 = 0 then 0
  else if (resultOf q.1.1 q.1.2,
           resultOf (q.1.1 + q.2.1) (q.1.2 + q.2.2)) = key
  then (if line < ((q.1.1 + q.2.1) + (q.1.2 + q.2.2) : ℚ)
        then 0 else cellAt m1 q.1.1 q.1.2 * cellAt m2 q.2.1 q.2.2)
  else 0

/-- `deriveHalfTimeFullTime(jointH1, jointH2)` (lines 280-344): quadruple loop
over both matrices (bounds from the first matrix's `size`), accumulating into
the 9-key `htft` table and the per-line over/under split `htftGoals`. -/
def deriveHalfTimeFullTime (jointH1 jointH2 : JointResult) : HTFTData :=
  let m1 := jointH1.matrix
  let m2 := jointH2.matrix
  let size := m1.length
  { htft := fun key => ∑ q in quadGrid size, htftTerm m1 m2 key q
    htftGoals := fun line key =>
      { over := ∑ q in quadGrid size, htftOverTerm m1 m2 line key q
        under := ∑ q in quadGrid size, htftUnderTerm m1 m2 line key q } }

/-- `htftTerm` without the two zero-cell `continue` skips. -/
def htftTermNoSkip (m1 m2 : List (List ℚ)) (key : RType × RType)
    (q : (ℕ × ℕ) × ℕ × ℕ) : ℚ :=
  if (resultOf q.1.1 q.1.2,
      resultOf (q.1.1 + q.2.1) (q.1.2 + q.2.2)) = key
  then cellAt m1 q.1.1 q.1.2 * cellAt m2 q.2.1 q.2.2 else 0

/-- `htftOverTerm` without the two zero-cell `continue` skips. -/
def htftOverTermNoSkip (m1 m2 : List (List ℚ)) (line : ℚ) (key : RType × RType)
    (q : (ℕ × ℕ) × ℕ × ℕ) : ℚ :=
  if (resultOf q.1.1 q.1.2,
      resultOf (q.1.1 + q.2.1) (q.1.2 + q.2.2)) = key
  then (if line < ((q.1.1 + q.2.1) + (q.1.2 + q.2.2) : ℚ)
        then cellAt m1 q.1.1 q.1.2 * cellAt m2 q.2.1 q.2.2 else 0)
  else 0

/-- `htftUnderTerm` without the two zero-cell `continue` skips. -/
def htftUnderTermNoSkip (m1 m2 : List (List ℚ)) (line : ℚ) (key : RType × RType)
    (q : (ℕ × ℕ) × ℕ × ℕ) : ℚ :=
  if (resultOf q.1.1 q.1.2,
      resultOf (q.1.1 + q.2.1) (q.1.2 + q.2.2)) = key
  then (if line < ((q.1.1 + q.2.1) + (q.1.2 + q.2.2) : ℚ)
        then 0 else cellAt m1 q.1.1 q.1.2 * cellAt m2 q.2.1 q.2.2)
  else 0

/-- The spec's reference computation for the zero-cell-skip claim: the same
quadruple-loop accumulation with no cell skipped (every `(pHT, p2H)` pair
contributes, zero or not). -/
def deriveHalfTimeFullTimeNoSkip (jointH1 jointH2 : JointResult) : HTFTData :=
  let m1 := jointH1.matrix
  let m2 := jointH2.matrix
  let size := m1.length
  { htft := fun key => ∑ q in quadGrid size, htftTermNoSkip m1 m2 key q
    htftGoals := fun line key =>
      { over := ∑ q in quadGrid size, htftOverTermNoSkip m1 m2 line key q
        under := ∑ q in quadGrid size, htftUnderTermNoSkip m1 m2 line key q } }

/-- A `size × size` matrix: the shape every `computeJointDistribution` output
has (with `size = maxGoals + 1`). -/
def isSquare (m : List (List ℚ)) (s : ℕ) : Prop :=
  m.length = s ∧ ∀ r ∈ m, r.length = s

instance (m : List (List ℚ)) (s : ℕ) : Decidable (isSquare m s) := by
  unfold isSquare; infer_instance

/-! ## Helper lemmas -/

theorem list_sum_map_mul_right (l : List ℚ) (r : ℚ) :
    (l.map fun p => p * r).sum = l.sum * r := by
  induction l with
  | nil => simp
  | cons x xs ih => simp [ih, add_mul]

theorem sum_range_length_getD {α : Type} (l : List α) (d : α) (f : α → ℚ) :
    ∑ i in Finset.range l.length, f (l.getD i d) = (l.map f).sum := by
  induction l with
  | nil => simp
  | cons x xs ih =>
    rw [List.length_cons, Finset.sum_range_succ']
    simp only [List.getD_cons_succ, List.getD_cons_zero, ih, List.map_cons, List.sum_cons]
    exact add_comm _ _

theorem pmf_probs_getD (e : ℚ → ℚ) (lambda pi : ℚ) (maxGoals k : ℕ)
    (hk : k < maxGoals + 1) :
    (computePoissonPMF e lambda maxGoals pi).probs.getD k 0 =
      pZip lambda pi (e (-lambda)) k := by
  simp only [computePoissonPMF]
  rw [List.getD_eq_getElem _ _ (by simpa using hk)]
  simp

theorem pmf_probs_length (e : ℚ → ℚ) (lambda pi : ℚ) (maxGoals : ℕ) :
    (computePoissonPMF e lambda maxGoals pi).probs.length = maxGoals + 1 := by
  simp [computePoissonPMF]

theorem getD_map {α β : Type} (f : α → β) (l : List α) (n : ℕ) (d : α) (d' : β)
    (hn : n < l.length) : (l.map f).getD n d' = f (l.getD n d) := by
  rw [List.getD_eq_getElem (l.map f) d' (by simpa using hn), List.getElem_map,
      List.getD_eq_getElem l d hn]

theorem buildJointMatrix_cell (probsH probsA : List ℚ) (h a : ℕ)
    (hh : h < probsH.length) (ha : a < probsA.length) :
    cellAt (buildJointMatrix probsH probsA) h a =
      probsH.getD h 0 * probsA.getD a 0 := by
  unfold cellAt buildJointMatrix
  rw [getD_map (fun ph => probsA.map fun pa => ph * pa) probsH h 0 [] hh,
      getD_map (fun pa => probsH.getD h 0 * pa) probsA a 0 0 ha]

theorem computeJoint_cell (e : ℚ → ℚ) (lambdaH lambdaA piH piA : ℚ)
    (maxGoals h a : ℕ) (hh : h < maxGoals + 1) (ha : a < maxGoals + 1) :
    cellAt (computeJointDistribution e lambdaH lambdaA piH piA maxGoals).matrix h a =
      pZip lambdaH piH (e (-lambdaH)) h * pZip lambdaA piA (e (-lambdaA)) a := by
  simp only [computeJointDistribution]
  rw [buildJointMatrix_cell _ _ _ _ (by simpa [pmf_probs_length] using hh)
        (by simpa [pmf_probs_length] using ha),
      pmf_probs_getD _ _ _ _ _ hh, pmf_probs_getD _ _ _ _ _ ha]

theorem list_sum_map_mul_left (l : List ℚ) (r : ℚ) :
    (l.map fun p => r * p).sum = r * l.sum := by
  induction l with
  | nil => simp
  | cons x xs ih => simp [ih, mul_add]

theorem matrixSum_buildJointMatrix (probsH probsA : List ℚ) :
    matrixSum (buildJointMatrix probsH probsA) = probsH.sum * probsA.sum := by
  unfold matrixSum buildJointMatrix
  induction probsH with
  | nil => simp
  | cons x xs ih =>
    simp only [List.map_cons, List.sum_cons, ih, add_mul]
    congr 1
    exact list_sum_map_mul_left probsA x

theorem gridSum_eq_matrixSum (m : List (List ℚ)) (s : ℕ)
    (hlen : m.length = s) (hrow : ∀ r ∈ m, r.length = s) :
    ∑ c in grid s, cellAt m c.1 c.2 = matrixSum m := by
  subst hlen
  rw [grid, Finset.sum_product]
  have hinner : ∀ h ∈ Finset.range m.length,
      ∑ a in Finset.range m.length, cellAt m h a = (m.getD h []).sum := by
    intro h hh
    rw [Finset.mem_range] at hh
    have hmem : m.getD h [] ∈ m := by
      rw [List.getD_eq_getElem _ _ hh]
      exact List.getElem_mem _
    have hl : (m.getD h []).length = m.length := hrow _ hmem
    unfold cellAt
    rw [← hl]
    simpa using sum_range_length_getD (m.getD h []) 0 id
  rw [Finset.sum_congr rfl hinner]
  exact sum_range_length_getD m [] List.sum

theorem list_sum_map_div_mul (l : List ℚ) (S T : ℚ) :
    (l.map fun p => p / S * T).sum = l.sum / S * T := by
  induction l with
  | nil => simp
  | cons x xs ih =>
    simp only [List.map_cons, List.sum_cons, ih]
    ring

/-! ## Claim theorems -/

/-- Claim C1: for every `lambda ≥ 0`, `pi ∈ [0,1]` and integer `maxGoals ≥ 0`,
`computePoissonPMF` returns the zero-inflated Poisson vector whose entry `k`
equals `pi + (1-pi) * e^(-lambda) * lambda^k / k!` for `k = 0` and
`(1-pi) * e^(-lambda) * lambda^k / k!` for `k > 0`, together with
`tail = 1 - (sum of the entries)`, so the entries plus the tail sum to
exactly 1.  (`e` abstracts `Math.exp`, so `e (-lambda)` is `e^(-lambda)`.) -/
theorem computePoissonPMF_zip_spec (e : ℚ → ℚ) (lambda pi : ℚ) (maxGoals : ℕ)
    (hlambda : 0 ≤ lambda) (hpi0 : 0 ≤ pi) (hpi1 : pi ≤ 1) :
    (∀ k (hk : k < (computePoissonPMF e lambda maxGoals pi).probs.length),
      (computePoissonPMF e lambda maxGoals pi).probs.get ⟨k, hk⟩ =
        if k = 0 then
          pi + (1 - pi) * (e (-lambda) * lambda ^ k / (Nat.factorial k : ℚ))
        else (1 - pi) * (e (-lambda) * lambda ^ k / (Nat.factorial k : ℚ))) ∧
    (computePoissonPMF e lambda maxGoals pi).tail =
      1 - (computePoissonPMF e lambda maxGoals pi).probs.sum ∧
    (computePoissonPMF e lambda maxGoals pi).probs.sum +
      (computePoissonPMF e lambda maxGoals pi).tail = 1 := by
  have ht : (computePoissonPMF e lambda maxGoals pi).tail =
      1 - (computePoissonPMF e lambda maxGoals pi).probs.sum := rfl
  refine ⟨?_, ht, by rw [ht]; ring⟩
  intro k hk
  rw [List.get_eq_getElem]
  simp [computePoissonPMF, pZip, factorial]

/-- Witness for C1 at `lambda = 3/2`, `pi = 1/10`, `maxGoals = 7`. -/
theorem computePoissonPMF_zip_spec_witness :
    (0 : ℚ) ≤ 3/2 ∧ (0 : ℚ) ≤ 1/10 ∧ (1/10 : ℚ) ≤ 1 ∧
    (computePoissonPMF expStub (3/2) 7 (1/10)).probs.sum +
      (computePoissonPMF expStub (3/2) 7 (1/10)).tail = 1 :=
  ⟨by norm_num, by norm_num, by norm_num,
    (computePoissonPMF_zip_spec expStub (3/2) (1/10) 7 (by norm_num) (by norm_num)
      (by norm_num)).2.2⟩

/-- Claim C4: `applyMargin` maps each entry to
`p / (sum of the input) * (1 + marginPct/100)` when the input sum is nonzero —
so the output sums to exactly `1 + marginPct/100` — and returns all zeros when
the input sum is 0 (explicit degenerate case, no division fault). -/
theorem applyMargin_spec (probs : List ℚ) (marginPct : ℚ) :
    (probs.sum ≠ 0 →
      (applyMargin probs marginPct).sum = 1 + marginPct / 100 ∧
      ∀ i, i < probs.length →
        (applyMargin probs marginPct).getD i 0 =
          probs.getD i 0 / probs.sum * (1 + marginPct / 100)) ∧
    (probs.sum = 0 → ∀ q ∈ applyMargin probs marginPct, q = 0) := by
  constructor
  · intro hs
    constructor
    · simp only [applyMargin, hs, if_false, list_sum_map_div_mul]
      rw [div_self hs, one_mul]
    · intro i hi
      unfold applyMargin
      rw [getD_map _ probs i 0 0 hi]
      simp [hs]
  · intro hs q hq
    simp only [applyMargin, List.mem_map] at hq
    obtain ⟨p, hp, hpq⟩ := hq
    rw [← hpq, hs]
    simp

/-- Witness for C4 at `probs = [0.5, 0.3, 0.2]`, `marginPct = 10`
(Scenario D of the spec: output sums to 1.10). -/
theorem applyMargin_spec_witness :
    ([1/2, 3/10, 1/5] : List ℚ).sum ≠ 0 ∧
    (applyMargin [1/2, 3/10, 1/5] 10).sum = 1 + 10 / 100 :=
  ⟨by norm_num, ((applyMargin_spec [1/2, 3/10, 1/5] 10).1 (by norm_num)).1⟩

/-- Claim C7: `getOdds` returns `1/p` when `p > 0.0001` and `0` otherwise (the
sentinel for no market); it is a total function and the `0.0001` threshold is
exact (the boundary value itself gets the sentinel). -/
theorem getOdds_spec (prob : ℚ) :
    (1/10000 < prob → getOdds prob = 1 / prob) ∧
    (prob ≤ 1/10000 → getOdds prob = 0) := by
  unfold getOdds
  exact ⟨fun h => by rw [if_neg (not_le.mpr h)], fun h => by rw [if_pos h]⟩

/-- Witness for C7 on both sides of the threshold (including the boundary). -/
theorem getOdds_spec_witness :
    ((1/10000 : ℚ) < 1/2 ∧ getOdds (1/2) = 2) ∧
    ((1/10000 : ℚ) ≤ 1/10000 ∧ getOdds (1/10000) = 0) :=
  ⟨⟨by norm_num, by rw [(getOdds_spec (1/2)).1 (by norm_num)]; norm_num⟩,
   ⟨le_refl _, (getOdds_spec (1/10000)).2 (le_refl _)⟩⟩

/-- Claim C9: `applyMargin` does not mutate its input.  In the state-passing
embedding `applyMarginTracked`, the input array's contents after the call equal
the contents before it, the returned value agrees with the pure `applyMargin`,
and the post-call contents are independent of the margin — so changing only
the margin never alters the underlying probabilities. -/
theorem applyMargin_no_mutation (probs : List ℚ) (m1 m2 : ℚ) :
    (applyMarginTracked probs m1).2 = probs ∧
    (applyMarginTracked probs m1).1 = applyMargin probs m1 ∧
    (applyMarginTracked probs m1).2 = (applyMarginTracked probs m2).2 :=
  ⟨rfl, rfl, rfl⟩

/-- Claim C5 (amended): the first (dutching) script variant builds the half-1
matrix from rates `lambdaFull * f` and the half-2 matrix from rates
`lambdaFull * (1 - f)` for both sides; the second script variant builds BOTH
half matrices from rates `lambdaFull * f`. -/
theorem calculateAndRender_half_split (e : ℚ → ℚ) (lH lA piH piA f : ℚ) :
    (calculateAndRenderJoints e lH lA piH piA f).jointH1 =
      computeJointDistribution e (lH * f) (lA * f) piH piA MAX_GOALS ∧
    (calculateAndRenderJoints e lH lA piH piA f).jointH2 =
      computeJointDistribution e (lH * (1 - f)) (lA * (1 - f)) piH piA MAX_GOALS ∧
    (calculateAndRenderJointsB e lH lA piH piA f).jointH1 =
      computeJointDistribution e (lH * f) (lA * f) piH piA MAX_GOALS ∧
    (calculateAndRenderJointsB e lH lA piH piA f).jointH2 =
      computeJointDistribution e (lH * f) (lA * f) piH piA MAX_GOALS :=
  ⟨rfl, rfl, rfl, rfl⟩

/-- Counterexample to C5 as stated: in the second script variant, with
`lambdaFull = 1`, `pi = 0` and `halfFactor = 1/4`, the half-2 joint matrix is
NOT the one built from rates `lambdaFull * (1 - 1/4)` (its cell (1,0) is `1/4`,
not `3/4`). -/
theorem calculateAndRender_half_split_counterexample :
    (calculateAndRenderJointsB expStub 1 1 0 0 (1/4)).jointH2 ≠
      computeJointDistribution expStub (1 * (1 - 1/4)) (1 * (1 - 1/4)) 0 0
        MAX_GOALS := by
  intro hEq
  have hc := congrArg (fun r => cellAt r.matrix 1 0) hEq
  simp only at hc
  have hL : cellAt (calculateAndRenderJointsB expStub 1 1 0 0 (1/4)).jointH2.matrix
      1 0 = 1/4 := by
    show cellAt (computeJointDistribution expStub (1 * (1/4)) (1 * (1/4)) 0 0
      MAX_GOALS).matrix 1 0 = 1/4
    rw [computeJoint_cell expStub _ _ _ _ MAX_GOALS 1 0 (by norm_num [MAX_GOALS])
      (by norm_num [MAX_GOALS])]
    norm_num [pZip, factorial, expStub, Nat.factorial]
  have hR : cellAt (computeJointDistribution expStub (1 * (1 - 1/4))
      (1 * (1 - 1/4)) 0 0 MAX_GOALS).matrix 1 0 = 3/4 := by
    rw [computeJoint_cell expStub _ _ _ _ MAX_GOALS 1 0 (by norm_num [MAX_GOALS])
      (by norm_num [MAX_GOALS])]
    norm_num [pZip, factorial, expStub, Nat.factorial]
  rw [hL, hR] at hc
  norm_num at hc

/-- Claim C2: every cell `[h][a]` of the matrix built by
`computeJointDistribution` equals `distHome[h] * distAway[a]`, and the returned
tail mass (1 minus the sum of all cells) equals
`1 - (sum of distHome entries) * (sum of distAway entries)`, exactly. -/
theorem computeJointDistribution_spec (e : ℚ → ℚ) (lambdaH lambdaA piH piA : ℚ)
    (maxGoals : ℕ) :
    (∀ h a, h < maxGoals + 1 → a < maxGoals + 1 →
      cellAt (computeJointDistribution e lambdaH lambdaA piH piA maxGoals).matrix
          h a =
        (computePoissonPMF e lambdaH maxGoals piH).probs.getD h 0 *
          (computePoissonPMF e lambdaA maxGoals piA).probs.getD a 0) ∧
    (computeJointDistribution e lambdaH lambdaA piH piA maxGoals).tailProb =
      1 - (computePoissonPMF e lambdaH maxGoals piH).probs.sum *
        (computePoissonPMF e lambdaA maxGoals piA).probs.sum := by
  constructor
  · intro h a hh ha
    show cellAt (buildJointMatrix (computePoissonPMF e lambdaH maxGoals piH).probs
      (computePoissonPMF e lambdaA maxGoals piA).probs) h a = _
    exact buildJointMatrix_cell _ _ h a (by rw [pmf_probs_length]; exact hh)
      (by rw [pmf_probs_length]; exact ha)
  · show 1 - matrixSum (buildJointMatrix
      (computePoissonPMF e lambdaH maxGoals piH).probs
      (computePoissonPMF e lambdaA maxGoals piA).probs) = _
    rw [matrixSum_buildJointMatrix]

/-- Witness for C2 at `lambdaH = lambdaA = 1`, `pi = 0`, cell (1, 0). -/
theorem computeJointDistribution_spec_witness :
    (1 : ℕ) < MAX_GOALS + 1 ∧ (0 : ℕ) < MAX_GOALS + 1 ∧
    cellAt (computeJointDistribution expStub 1 1 0 0 MAX_GOALS).matrix 1 0 =
      (computePoissonPMF expStub 1 MAX_GOALS 0).probs.getD 1 0 *
        (computePoissonPMF expStub 1 MAX_GOALS 0).probs.getD 0 0 :=
  ⟨by norm_num [MAX_GOALS], by norm_num [MAX_GOALS],
    (computeJointDistribution_spec expStub 1 1 0 0 MAX_GOALS).1 1 0
      (by norm_num [MAX_GOALS]) (by norm_num [MAX_GOALS])⟩

/-- Claim C3: whenever the raw 1X2 grid accumulation is positive,
`deriveMarkets` returns `homeWin + draw + awayWin = 1` exactly (the three are
renormalized by their own sum, tail excluded), while `bttsYes` stays the raw
un-renormalized grid sum and `bttsNo` is its arithmetic complement
`1 - bttsYes` (not a grid recomputation). -/
theorem deriveMarkets_1x2_btts (j : JointResult)
    (hpos : 0 < homeWinRaw j.matrix + drawRaw j.matrix + awayWinRaw j.matrix) :
    (deriveMarkets j).homeWin + (deriveMarkets j).draw +
        (deriveMarkets j).awayWin = 1 ∧
    (deriveMarkets j).bttsYes = bttsYesRaw j.matrix ∧
    (deriveMarkets j).bttsNo = 1 - (deriveMarkets j).bttsYes := by
  refine ⟨?_, rfl, rfl⟩
  have hne := ne_of_gt hpos
  simp only [deriveMarkets, if_pos hpos]
  rw [div_add_div_same, div_add_div_same, div_self hne]

/-- Witness for C3 on the 1×1 joint matrix `[[1]]` (all mass on the 0-0 draw). -/
theorem deriveMarkets_1x2_btts_witness :
    0 < homeWinRaw (JointResult.mk [[1]] 0).matrix +
        drawRaw (JointResult.mk [[1]] 0).matrix +
        awayWinRaw (JointResult.mk [[1]] 0).matrix ∧
    (deriveMarkets (JointResult.mk [[1]] 0)).homeWin +
        (deriveMarkets (JointResult.mk [[1]] 0)).draw +
        (deriveMarkets (JointResult.mk [[1]] 0)).awayWin = 1 :=
  ⟨by norm_num [homeWinRaw, drawRaw, awayWinRaw, grid, cellAt,
      Finset.sum_product, Finset.sum_range_succ],
    (deriveMarkets_1x2_btts (JointResult.mk [[1]] 0)
      (by norm_num [homeWinRaw, drawRaw, awayWinRaw, grid, cellAt,
        Finset.sum_product, Finset.sum_range_succ])).1⟩

theorem list_map_sum_comm {α β : Type} (l : List α) (s : Finset β)
    (f : α → β → ℚ) :
    (l.map fun x => ∑ y in s, f x y).sum = ∑ y in s, (l.map fun x => f x y).sum := by
  induction l with
  | nil => simp
  | cons x xs ih => simp [ih, Finset.sum_add_distrib]

theorem htftKeys_sum_term (m1 m2 : List (List ℚ)) (q : (ℕ × ℕ) × ℕ × ℕ) :
    (htftKeys.map fun key => htftTerm m1 m2 key q).sum =
      cellAt m1 q.1.1 q.1.2 * cellAt m2 q.2.1 q.2.2 := by
  obtain ⟨⟨a, b⟩, c, d⟩ := q
  by_cases h1 : cellAt m1 a b = 0
  · simp [htftKeys, htftTerm, h1]
  by_cases h2 : cellAt m2 c d = 0
  · simp [htftKeys, htftTerm, h1, h2]
  cases hr1 : resultOf a b <;> cases hr2 : resultOf (a + c) (b + d) <;>
    simp [htftKeys, htftTerm, h1, h2, hr1, hr2]

theorem htftTerm_skip_eq (m1 m2 : List (List ℚ)) (key : RType × RType)
    (q : (ℕ × ℕ) × ℕ × ℕ) :
    htftTerm m1 m2 key q = htftTermNoSkip m1 m2 key q := by
  unfold htftTerm htftTermNoSkip
  by_cases h1 : cellAt m1 q.1.1 q.1.2 = 0
  · simp [h1]
  by_cases h2 : cellAt m2 q.2.1 q.2.2 = 0
  · simp [h1, h2]
  simp [h1, h2]

theorem htftOverTerm_skip_eq (m1 m2 : List (List ℚ)) (line : ℚ)
    (key : RType × RType) (q : (ℕ × ℕ) × ℕ × ℕ) :
    htftOverTerm m1 m2 line key q = htftOverTermNoSkip m1 m2 line key q := by
  unfold htftOverTerm htftOverTermNoSkip
  by_cases h1 : cellAt m1 q.1.1 q.1.2 = 0
  · simp [h1]
  by_cases h2 : cellAt m2 q.2.1 q.2.2 = 0
  · simp [h1, h2]
  simp [h1, h2]

theorem htftUnderTerm_skip_eq (m1 m2 : List (List ℚ)) (line : ℚ)
    (key : RType × RType) (q : (ℕ × ℕ) × ℕ × ℕ) :
    htftUnderTerm m1 m2 line key q = htftUnderTermNoSkip m1 m2 line key q := by
  unfold htftUnderTerm htftUnderTermNoSkip
  by_cases h1 : cellAt m1 q.1.1 q.1.2 = 0
  · simp [h1]
  by_cases h2 : cellAt m2 q.2.1 q.2.2 = 0
  · simp [h1, h2]
  simp [h1, h2]

/-- Claim C6: the sum of the 9 half-time/full-time probabilities returned by
`deriveHalfTimeFullTime` equals (sum of all cells of `jointH1`) × (sum of all
cells of `jointH2`) — i.e. it misses 1 by exactly the compound tail truncation
`1 - totalMass₁ * totalMass₂`. -/
theorem deriveHalfTimeFullTime_total (j1 j2 : JointResult)
    (h1 : isSquare j1.matrix j1.matrix.length)
    (h2 : isSquare j2.matrix j1.matrix.length) :
    (htftKeys.map (deriveHalfTimeFullTime j1 j2).htft).sum =
      matrixSum j1.matrix * matrixSum j2.matrix := by
  have hfield : (deriveHalfTimeFullTime j1 j2).htft = fun key =>
      ∑ q in quadGrid j1.matrix.length, htftTerm j1.matrix j2.matrix key q := rfl
  rw [hfield, list_map_sum_comm htftKeys (quadGrid j1.matrix.length)
    (fun key q => htftTerm j1.matrix j2.matrix key q)]
  rw [Finset.sum_congr rfl fun q _ => htftKeys_sum_term j1.matrix j2.matrix q]
  rw [quadGrid, Finset.sum_product]
  dsimp only
  rw [← Finset.sum_mul_sum]
  rw [gridSum_eq_matrixSum j1.matrix j1.matrix.length rfl h1.2,
      gridSum_eq_matrixSum j2.matrix j1.matrix.length h2.1 h2.2]

/-- Witness for C6 on a pair of concrete 1×1 joint matrices. -/
theorem deriveHalfTimeFullTime_total_witness :
    isSquare (JointResult.mk [[1/2]] (1/2)).matrix
        (JointResult.mk [[1/2]] (1/2)).matrix.length ∧
    isSquare (JointResult.mk [[1/3]] (2/3)).matrix
        (JointResult.mk [[1/2]] (1/2)).matrix.length ∧
    (htftKeys.map (deriveHalfTimeFullTime (JointResult.mk [[1/2]] (1/2))
        (JointResult.mk [[1/3]] (2/3))).htft).sum =
      matrixSum (JointResult.mk [[1/2]] (1/2)).matrix *
        matrixSum (JointResult.mk [[1/3]] (2/3)).matrix :=
  ⟨by decide, by decide,
    deriveHalfTimeFullTime_total (JointResult.mk [[1/2]] (1/2))
      (JointResult.mk [[1/3]] (2/3)) (by decide) (by decide)⟩

/-- Claim C8: `deriveHalfTimeFullTime` with the zero-probability-cell skip (the
`continue` on cells equal to 0) returns exactly the same `htft` and
`htftGoals` results as the same computation with no cell skipped. -/
theorem deriveHalfTimeFullTime_skip_spec (j1 j2 : JointResult) :
    deriveHalfTimeFullTime j1 j2 = deriveHalfTimeFullTimeNoSkip j1 j2 := by
  simp only [deriveHalfTimeFullTime, deriveHalfTimeFullTimeNoSkip,
    HTFTData.mk.injEq]
  constructor
  · funext key
    exact Finset.sum_congr rfl fun q _ =>
      htftTerm_skip_eq j1.matrix j2.matrix key q
  · funext line key
    simp only [OverUnder.mk.injEq]
    exact ⟨Finset.sum_congr rfl fun q _ =>
        htftOverTerm_skip_eq j1.matrix j2.matrix line key q,
      Finset.sum_congr rfl fun q _ =>
        htftUnderTerm_skip_eq j1.matrix j2.matrix line key q⟩

/-- Claim C10: for every standard goal line and every one of the 9
half-time/full-time keys, the over/under split returned by
`deriveHalfTimeFullTime` partitions that key's mass exactly:
`htftGoals[line][key].over + htftGoals[line][key].under = htft[key]`. -/
theorem htftGoals_partition (j1 j2 : JointResult) (line : ℚ)
    (key : RType × RType) (hline : line ∈ STANDARD_LINES) :
    ((deriveHalfTimeFullTime j1 j2).htftGoals line key).over +
        ((deriveHalfTimeFullTime j1 j2).htftGoals line key).under =
      (deriveHalfTimeFullTime j1 j2).htft key := by
  show (∑ q in quadGrid j1.matrix.length,
      htftOverTerm j1.matrix j2.matrix line key q) +
    (∑ q in quadGrid j1.matrix.length,
      htftUnderTerm j1.matrix j2.matrix line key q) =
    ∑ q in quadGrid j1.matrix.length, htftTerm j1.matrix j2.matrix key q
  rw [← Finset.sum_add_distrib]
  refine Finset.sum_congr rfl fun q _ => ?_
  unfold htftOverTerm htftUnderTerm htftTerm
  by_cases hz1 : cellAt j1.matrix q.1.1 q.1.2 = 0
  · simp [hz1]
  by_cases hz2 : cellAt j2.matrix q.2.1 q.2.2 = 0
  · simp [hz1, hz2]
  by_cases hk : (resultOf q.1.1 q.1.2,
      resultOf (q.1.1 + q.2.1) (q.1.2 + q.2.2)) = key
  · by_cases ht : line < ((q.1.1 + q.2.1) + (q.1.2 + q.2.2) : ℚ) <;>
      simp [hz1, hz2, hk, ht]
  · simp [hz1, hz2, hk]

/-- Witness for C10 at line 2.5 and key Draw/Draw on concrete 1×1 matrices. -/
theorem htftGoals_partition_witness :
    (5/2 : ℚ) ∈ STANDARD_LINES ∧
    ((deriveHalfTimeFullTime (JointResult.mk [[1/2]] (1/2))
        (JointResult.mk [[1/3]] (2/3))).htftGoals (5/2)
        (RType.D, RType.D)).over +
      ((deriveHalfTimeFullTime (JointResult.mk [[1/2]] (1/2))
        (JointResult.mk [[1/3]] (2/3))).htftGoals (5/2)
        (RType.D, RType.D)).under =
      (deriveHalfTimeFullTime (JointResult.mk [[1/2]] (1/2))
        (JointResult.mk [[1/3]] (2/3))).htft (RType.D, RType.D) :=
  ⟨by norm_num [STANDARD_LINES],
    htftGoals_partition (JointResult.mk [[1/2]] (1/2))
      (JointResult.mk [[1/3]] (2/3)) (5/2) (RType.D, RType.D)
      (by norm_num [STANDARD_LINES])⟩

end ZIP
